import Mathlib

/-
Verification of the server/client sliding-window protocol (API.py, Server.py,
Client.py) against its natural-language specification.

Modelling conventions:
* Python byte strings are `List Nat` (one entry per byte).
* Python `int` is `Int` wherever a value can be negative or a comparison mixes
  signed quantities (`last_acked` starts at -1); header fields established by a
  constructor are stored as `Nat`.
* Python `%` on a positive modulus agrees with `Int.emod`, the `%` of `Int`.
* Fallible constructors/decoders return `Except String`.
* `str` payloads: the server decodes payload bytes with utf-8
  (`data_to_message`) before appending them to the assembled message.  The
  assembled message is modelled as the raw byte list and the decode step as the
  identity on bytes, which is exact for the ASCII payloads used in all concrete
  runs below; no claim depends on the utf-8 decoding function itself.
* Python's `list.remove(x)` deletes the first element equal to `x`; it is
  modelled with `List.erase`, which coincides with the source's
  identity-based removal whenever the buffered segments are pairwise distinct
  (they are in every run considered here, since buffered package numbers
  differ).
-/

namespace SCC

/-- A data segment, mirroring `MessageHeader` of API.py (fields as established
by its constructor: `window_size` is stored as the declared size minus one). -/
structure MessageHeader where
  total_length : Nat
  max_msg_size : Nat
  window_size : Nat
  package_num : Nat
  data : List Nat
deriving DecidableEq

/-- `MessageHeader.__init__` of API.py: self-heals `total_length`, resolves
`max_msg_size` against the default 65531, then validates total length, window
size, package number and data size, in the source's order. -/
def mkMessageHeader (total_length : Option Int) (window_size : Int)
    (package_num : Int) (max_msg_size : Int) (data : List Nat) :
    Except String MessageHeader :=
  let tl : Int :=
    match total_length with
    | none => 6 + data.length
    | some t => if t = 6 + (data.length : Int) then t else 6 + data.length
  let mms : Int :=
    if 65531 ≥ max_msg_size ∧ max_msg_size > 0 then max_msg_size else 65531
  if ¬ (6 ≤ tl ∧ tl ≤ mms) then .error "invalid total length"
  else if window_size < 1 ∨ window_size > 128 then .error "invalid window size"
  else if package_num < 0 ∨ package_num ≥ 2 * window_size then
    .error "invalid package number"
  else if (data.length : Int) > mms - 6 then .error "invalid data size"
  else .ok ⟨tl.toNat, mms.toNat, (window_size - 1).toNat, package_num.toNat, data⟩

/-- `MessageHeader.pack`: big-endian `!HHBB` header followed by the payload. -/
def MessageHeader.pack (h : MessageHeader) : List Nat :=
  [h.total_length / 256, h.total_length % 256,
   h.max_msg_size / 256, h.max_msg_size % 256,
   h.window_size, h.package_num] ++ h.data

/-- `MessageHeader.unpack`: needs at least the 6 header bytes, re-runs the
constructor on the decoded fields (with the stored window size plus one) and
the remaining bytes as payload. -/
def MessageHeader.unpack (data : List Nat) : Except String MessageHeader :=
  match data with
  | b0 :: b1 :: b2 :: b3 :: b4 :: b5 :: rest =>
    mkMessageHeader (some ((b0 * 256 + b1 : Nat) : Int)) ((b4 : Int) + 1)
      (b5 : Int) ((b2 * 256 + b3 : Nat) : Int) rest
  | _ => .error "data is too short to be a header"

/-- `data_to_message` of API.py decodes the payload of a segment; modelled as
the raw payload bytes (see the conventions note at the top of this file). -/
def data_to_message (h : MessageHeader) : List Nat :=
  h.data

/-- `unpack_total_message_size` of API.py: requires at least the 6-byte header
and reads the first two bytes big-endian. -/
def unpack_total_message_size : List Nat → Except String Nat
  | b0 :: b1 :: _ :: _ :: _ :: _ :: _ => .ok (b0 * 256 + b1)
  | _ => .error "data too short to be a header"

/-- An ack segment, mirroring `AckHeader` of API.py. -/
structure AckHeader where
  max_msg_size : Nat
  ack_number : Nat
deriving DecidableEq

/-- `AckHeader.__init__`: validates `max_msg_size` in [0, 2^16) and
`ack_number` in [0, 2^8). -/
def mkAckHeader (ack_number : Int) (max_msg_size : Int) :
    Except String AckHeader :=
  if max_msg_size < 0 ∨ max_msg_size ≥ 65536 then
    .error "invalid ack number max size"
  else if ack_number < 0 ∨ ack_number ≥ 256 then .error "invalid ack number"
  else .ok ⟨max_msg_size.toNat, ack_number.toNat⟩

/-- `AckHeader.pack`: big-endian `!HB`. -/
def AckHeader.pack (a : AckHeader) : List Nat :=
  [a.max_msg_size / 256, a.max_msg_size % 256, a.ack_number]

/-- `AckHeader.unpack`: the input must be exactly 3 bytes. -/
def AckHeader.unpack (data : List Nat) : Except String AckHeader :=
  match data with
  | [b0, b1, b2] => mkAckHeader (b2 : Int) ((b0 * 256 + b1 : Nat) : Int)
  | _ => .error "data is not the correct length"

/-- The loop body of `separate_requests` (Server.py): iterates over the bytes
of the original read; `rem` is the suffix of the read from the start of the
message currently being copied, `counter` counts its copied bytes, `tl` its
declared length, `done`/`cur` the finished slices and the slice in progress. -/
def sepLoop : List Nat → List Nat → Nat → Nat → List (List Nat) → List Nat →
    Except String (List (List Nat))
  | [], _, _, _, done, cur => .ok (done ++ [cur])
  | b :: rest, rem, counter, tl, done, cur =>
    if counter < tl then
      sepLoop rest rem (counter + 1) tl done (cur ++ [b])
    else
      let rem2 := rem.drop tl
      let tlE : Except String Nat :=
        if 0 < rem2.length then unpack_total_message_size rem2 else .ok tl
      match tlE with
      | .error e => .error e
      | .ok tl2 => sepLoop rest rem2 1 tl2 (done ++ [cur]) [b]

/-- `separate_requests` of Server.py: reads the declared length of the first
message; if the read holds more bytes than that, splits it with `sepLoop`,
otherwise returns the whole read as one slice. -/
def separate_requests (data : List Nat) : Except String (List (List Nat)) :=
  match unpack_total_message_size data with
  | .error e => .error e
  | .ok tl => if tl < data.length then sepLoop data data 0 tl [] [] else .ok [data]

/-- The per-connection receiver state held in `local_thread` by
`client_handler` (Server.py). -/
structure ServerThread where
  decided_size : Bool
  max_message_length : Int
  window_size : Int
  last_acked : Int
  message : List Nat
  buffer : List MessageHeader
deriving DecidableEq

/-- The initial `local_thread` fields set by `client_handler`. -/
def initialThread : ServerThread :=
  ⟨false, 65535, -1, -1, [], []⟩

/-- The already-acked test at the top of `buffer_request` (Server.py lines
230-233), written exactly as the source's plain integer comparisons. -/
def isStaleOrDuplicate (la W seq : Int) : Bool :=
  decide ((la - W < seq ∧ seq ≤ la) ∨ la + W ≤ seq)

/-- Modelled from the spec: the spec's own wording of
`isStaleOrDuplicate(seq, lastAcked, W)` in section 4.3, with both
comparisons "evaluated modulo 2W", following the spec's worked example in
which the second comparison becomes `(lastAcked + W) mod 2W ≤ seq`.  This
definition is written from the spec's words, for comparison with
`isStaleOrDuplicate` above, which is written from the source. -/
def specStaleOrDuplicateModular (la W seq : Int) : Bool :=
  decide (((la - W) % (2 * W) < seq % (2 * W) ∧ seq % (2 * W) ≤ la % (2 * W)) ∨
    (la + W) % (2 * W) ≤ seq % (2 * W))

/-- The insertion loop of `buffer_request`: walks the buffer, breaking on an
equal package number, otherwise inserting before the first "bigger" package
using the source's case split on `0 ≤ last_acked < window_size`. -/
def bufferInsert (la W : Int) (request : MessageHeader) :
    List MessageHeader → List MessageHeader
  | [] => [request]
  | p :: rest =>
    let rn : Int := request.package_num
    let pn : Int := p.package_num
    if rn = pn then p :: rest
    else if 0 ≤ la ∧ la < W then
      if la < rn ∧ rn < pn then request :: p :: rest
      else p :: bufferInsert la W request rest
    else
      if (la < rn ∧ rn < pn) ∨ (pn < la ∧ la < rn) ∨ (rn < pn ∧ pn < la) then
        request :: p :: rest
      else p :: bufferInsert la W request rest

/-- `buffer_request` of Server.py: drops a request classified as already
acked, otherwise inserts it into the buffer. -/
def buffer_request (st : ServerThread) (request : MessageHeader) : ServerThread :=
  if isStaleOrDuplicate st.last_acked st.window_size (request.package_num : Int) then
    st
  else
    { st with buffer := bufferInsert st.last_acked st.window_size request st.buffer }

/-- The drain loop of `process_request` (Server.py lines 331-347): Python's
`for package in buffer` with an in-loop `buffer.remove(package)`, so the
iterator index `k` advances over the shrinking list exactly as in CPython.
`fuel` bounds the iteration count; every call below passes one more than the
buffer length, which the loop can never exceed (each step either removes an
element or stops). -/
def drainLoop (W : Int) : Nat → Nat → List MessageHeader → Int → List Nat →
    List MessageHeader × Int × List Nat
  | 0, _, buf, la, msg => (buf, la, msg)
  | fuel + 1, k, buf, la, msg =>
    if h : k < buf.length then
      let p := buf[k]
      if (p.package_num : Int) = (la + 1) % (2 * W) then
        drainLoop W fuel (k + 1) (buf.erase p) (p.package_num : Int)
          (msg ++ data_to_message p)
      else (buf, la, msg)
    else (buf, la, msg)

/-- `process_request` of Server.py.  `negotiatedMax` stands for the maximum
message size obtained from the server operator (console/file collaborator) on
the first request.  The returned state reflects all in-place mutations even
when building the ack raises, exactly as the Python state does. -/
def process_request (st : ServerThread) (negotiatedMax : Int)
    (request : MessageHeader) : ServerThread × Except String AckHeader :=
  let st1 :=
    if !st.decided_size then
      { st with
          max_message_length := negotiatedMax
          decided_size := true
          window_size := (request.window_size : Int) + 1 }
    else st
  let st2 := buffer_request st1 request
  let st3 :=
    if 0 < st2.buffer.length then
      let r := drainLoop st2.window_size (st2.buffer.length + 1) 0 st2.buffer
        st2.last_acked st2.message
      { st2 with buffer := r.1, last_acked := r.2.1, message := r.2.2 }
    else st2
  (st3, mkAckHeader st3.last_acked st3.max_message_length)

/-- Decoding every framed slice of one read, as the loop in `client_handler`
(Server.py lines 139-141) does before any request is processed; fails as soon
as one slice fails to decode. -/
def unpackAll : List (List Nat) → Except String (List MessageHeader)
  | [] => .ok []
  | p :: ps =>
    match MessageHeader.unpack p with
    | .error e => .error e
    | .ok h =>
      match unpackAll ps with
      | .error e => .error e
      | .ok hs => .ok (h :: hs)

/-- The processing loop of `client_handler`: each decoded request is processed
in order and only the last response is kept; an exception raised while
processing aborts the loop, keeping the mutations made so far but sending no
ack. -/
def processAll (negotiatedMax : Int) :
    ServerThread → List MessageHeader → ServerThread × Option AckHeader
  | st, [] => (st, none)
  | st, r :: rs =>
    let q := process_request st negotiatedMax r
    match q.2 with
    | .error _ => (q.1, none)
    | .ok ack =>
      match rs with
      | [] => (q.1, some ack)
      | _ :: _ => processAll negotiatedMax q.1 rs

/-- One iteration of the read loop of `client_handler` (Server.py lines
129-164) on one physical read: frame the read, decode every slice, then
process the batch; any framing or decoding failure abandons the batch, leaving
the state untouched and sending no ack. -/
def handle_read (st : ServerThread) (negotiatedMax : Int) (data : List Nat) :
    ServerThread × Option AckHeader :=
  match separate_requests data with
  | .error _ => (st, none)
  | .ok parts =>
    match unpackAll parts with
    | .error _ => (st, none)
    | .ok reqs => processAll negotiatedMax st reqs

/-- Folding a sequence of physical reads through `handle_read`, keeping the
state (used to reach concrete receiver states in the theorems below). -/
def runReads (negotiatedMax : Int) (st : ServerThread) :
    List (List Nat) → ServerThread
  | [] => st
  | d :: ds => runReads negotiatedMax (handle_read st negotiatedMax d).1 ds

/-- The loop body of `divide_msg` (Client.py): `done` are the finished chunks,
`cur` the chunk being filled. -/
def divideAux (maxSize : Nat) : List Nat → List (List Nat) → List Nat →
    List (List Nat)
  | [], done, cur => done ++ [cur]
  | c :: rest, done, cur =>
    if cur.length < maxSize then divideAux maxSize rest done (cur ++ [c])
    else divideAux maxSize rest (done ++ [cur]) [c]

/-- `divide_msg` of Client.py: cuts the message into chunks, starting a new
chunk whenever the current one has reached `maxSize` characters. -/
def divide_msg (message : List Nat) (maxSize : Nat) : List (List Nat) :=
  divideAux maxSize message [] []

/-- The ack-retirement loop of `client` (Client.py lines 155-172): pops
packages from the front of the sliding window until the acked one (inclusive)
is removed, first breaking if the ack is for a package no longer in the
window; resets the retransmission clock to `now` when the acked package is
removed and the window stays non-empty. -/
def ackRemoveLoop (W ackNumber now : Int) :
    List MessageHeader → Int → List MessageHeader × Int
  | [], clock => ([], clock)
  | p :: rest, clock =>
    let pn : Int := p.package_num
    if ((pn - W ≤ ackNumber ∧ ackNumber < pn) ∨ pn + W ≤ ackNumber) then
      (p :: rest, clock)
    else if pn = ackNumber then
      (rest, if 0 < rest.length then now else clock)
    else ackRemoveLoop W ackNumber now rest clock

/-- One pass of the receive phase of the client's send loop (Client.py lines
145-181): a manual timeout fires when the oldest outstanding segment has been
waiting longer than the configured timeout; a socket timeout is modelled as
`incoming = none`.  On either timeout the whole sliding window is
retransmitted in order and the clock is reset; otherwise the received ack is
decoded (a decode failure propagates, aborting the client) and the window is
retired with `ackRemoveLoop`. -/
def client_ack_step (W timeoutV : Int) (slidingWindow : List MessageHeader)
    (firstMsgSent now : Int) (incoming : Option (List Nat)) :
    Except String (List MessageHeader × Int × List (List Nat)) :=
  if timeoutV < now - firstMsgSent then
    .ok (slidingWindow, now, slidingWindow.map MessageHeader.pack)
  else
    match incoming with
    | none => .ok (slidingWindow, now, slidingWindow.map MessageHeader.pack)
    | some bs =>
      match AckHeader.unpack bs with
      | .error e => .error e
      | .ok response =>
        let r := ackRemoveLoop W (response.ack_number : Int) now slidingWindow
          firstMsgSent
        .ok (r.1, r.2, [])

/-- The invariant `MessageHeader.__init__` establishes on every constructed
segment. -/
def MessageHeader.Wf (h : MessageHeader) : Prop :=
  h.total_length = 6 + h.data.length ∧ 0 < h.max_msg_size ∧
    h.max_msg_size ≤ 65531 ∧ h.total_length ≤ h.max_msg_size ∧
    h.window_size ≤ 127 ∧ h.package_num < 2 * (h.window_size + 1)

/-- The handshake probe the client builds with
`MessageHeader(total_length=None, window_size=W, package_num=0)`. -/
def probe (W : Nat) : MessageHeader :=
  ⟨6, 65531, W - 1, 0, []⟩

/-- Wire bytes of the window-4 handshake probe. -/
def probeBytes4 : List Nat := [0, 6, 255, 251, 3, 0]

/-- Wire bytes of the window-1 handshake probe. -/
def probeBytes1 : List Nat := [0, 6, 255, 251, 0, 0]

/-- Wire bytes of a window-4 data segment with the given package number and a
one-byte payload `[97]`. -/
def segBytes (pn : Nat) : List Nat := [0, 7, 255, 251, 3, pn, 97]

end SCC

deriving instance DecidableEq for Except

namespace SCC

set_option maxRecDepth 8000

theorem mk_total_irrelevant (t ws pn mm : Int) (d : List Nat) :
    mkMessageHeader (some t) ws pn mm d = mkMessageHeader none ws pn mm d := by
  by_cases ht : t = 6 + (d.length : Int) <;> simp [mkMessageHeader, ht]

theorem umts_length {l : List Nat} {v : Nat}
    (h : unpack_total_message_size l = .ok v) : 6 ≤ l.length := by
  rcases l with _ | ⟨b0, _ | ⟨b1, _ | ⟨b2, _ | ⟨b3, _ | ⟨b4, _ | ⟨b5, t⟩⟩⟩⟩⟩⟩ <;>
    simp only [unpack_total_message_size] at h
  all_goals try exact Except.noConfusion h
  simp

theorem umts_append {l : List Nat} {v : Nat}
    (h : unpack_total_message_size l = .ok v) (r : List Nat) :
    unpack_total_message_size (l ++ r) = .ok v := by
  rcases l with _ | ⟨b0, _ | ⟨b1, _ | ⟨b2, _ | ⟨b3, _ | ⟨b4, _ | ⟨b5, t⟩⟩⟩⟩⟩⟩ <;>
    simp only [unpack_total_message_size] at h
  all_goals try exact Except.noConfusion h
  simpa [unpack_total_message_size] using h

/-- Loop invariant of `sepLoop` on an exactly-tiled input: while `cur` bytes of
the current message have been copied and `tail` bytes of it remain, followed on
the wire by the self-describing messages `msgs`, the loop finishes every
message and returns all of them in arrival order. -/
theorem sepLoop_spec (msgs : List (List Nat))
    (hm : ∀ m ∈ msgs, unpack_total_message_size m = .ok m.length) :
    ∀ (tail cur : List Nat) (done : List (List Nat)) (rem : List Nat) (c tl : Nat),
      rem = cur ++ (tail ++ msgs.flatten) → c = cur.length →
      tl = cur.length + tail.length →
      sepLoop (tail ++ msgs.flatten) rem c tl done cur
        = .ok (done ++ (cur ++ tail) :: msgs) := by
  induction msgs with
  | nil =>
    intro tail
    induction tail with
    | nil =>
      intro cur done rem c tl hrem hc htl
      simp [sepLoop]
    | cons t ts iht =>
      intro cur done rem c tl hrem hc htl
      simp only [List.cons_append, sepLoop]
      rw [if_pos (by subst hc; subst htl; simp only [List.length_cons]; omega)]
      have e : cur ++ t :: ts = (cur ++ [t]) ++ ts := by simp
      rw [e]
      exact iht (cur ++ [t]) done rem (c + 1) tl
        (by subst hrem; simp) (by subst hc; simp)
        (by subst htl; simp only [List.length_append, List.length_cons,
          List.length_nil]; omega)
  | cons m ms ihm =>
    have hm0 : unpack_total_message_size m = .ok m.length := hm m (by simp)
    have hms : ∀ x ∈ ms, unpack_total_message_size x = .ok x.length :=
      fun x hx => hm x (by simp [hx])
    intro tail
    induction tail with
    | nil =>
      intro cur done rem c tl hrem hc htl
      subst hrem; subst hc; subst htl
      obtain ⟨b, mt, rfl⟩ : ∃ b mt, m = b :: mt := by
        rcases m with _ | ⟨b, mt⟩
        · exact absurd hm0 (by simp [unpack_total_message_size])
        · exact ⟨b, mt, rfl⟩
      simp only [List.nil_append, List.append_nil, List.length_nil, Nat.add_zero,
        List.flatten_cons, List.cons_append]
      have hu : unpack_total_message_size (b :: (mt ++ ms.flatten)) =
          .ok (b :: mt).length := by
        have h2 := umts_append hm0 ms.flatten
        simpa using h2
      have h2 := ihm hms mt [b] (done ++ [cur]) (b :: (mt ++ ms.flatten)) 1
        (mt.length + 1) (by simp) (by simp)
        (by simp only [List.length_append, List.length_cons, List.length_nil]; omega)
      simp only [sepLoop, lt_self_iff_false, if_false, List.drop_left, hu,
        List.length_cons, Nat.zero_lt_succ, if_true]
      rw [h2]
      simp
    | cons t ts iht =>
      intro cur done rem c tl hrem hc htl
      simp only [List.cons_append, sepLoop]
      rw [if_pos (by subst hc; subst htl; simp only [List.length_cons]; omega)]
      have e : cur ++ t :: ts = (cur ++ [t]) ++ ts := by simp
      rw [e]
      exact iht (cur ++ [t]) done rem (c + 1) tl
        (by subst hrem; simp) (by subst hc; simp)
        (by subst htl; simp only [List.length_append, List.length_cons,
          List.length_nil]; omega)

theorem divideAux_bound (maxSize : Nat) (hpos : 1 ≤ maxSize) :
    ∀ (msg : List Nat) (done : List (List Nat)) (cur : List Nat),
      (∀ x ∈ done, x.length ≤ maxSize) → cur.length ≤ maxSize →
      ∀ c ∈ divideAux maxSize msg done cur, c.length ≤ maxSize := by
  intro msg
  induction msg with
  | nil =>
    intro done cur hd hc c hcm
    simp only [divideAux, List.mem_append, List.mem_singleton] at hcm
    rcases hcm with hcm | rfl
    · exact hd c hcm
    · exact hc
  | cons a rest ih =>
    intro done cur hd hc c hcm
    simp only [divideAux] at hcm
    split_ifs at hcm with hlt
    · refine ih done (cur ++ [a]) hd ?_ c hcm
      simp only [List.length_append, List.length_cons, List.length_nil]
      omega
    · refine ih (done ++ [cur]) [a] ?_ ?_ c hcm
      · intro x hx
        rcases List.mem_append.mp hx with hx | hx
        · exact hd x hx
        · simp only [List.mem_singleton] at hx; subst hx; exact hc
      · simpa using hpos

theorem unpackAll_error_of_mem :
    ∀ (parts : List (List Nat)) (p : List Nat), p ∈ parts →
      (∃ e, MessageHeader.unpack p = .error e) →
      ∃ e, unpackAll parts = .error e := by
  intro parts
  induction parts with
  | nil => intro p hp; simp at hp
  | cons q qs ih =>
    rintro p hp ⟨e, he⟩
    rcases List.mem_cons.mp hp with rfl | hq
    · exact ⟨e, by simp [unpackAll, he]⟩
    · cases hu : MessageHeader.unpack q with
      | error e2 => exact ⟨e2, by simp [unpackAll, hu]⟩
      | ok hh =>
        obtain ⟨e2, he2⟩ := ih p hq ⟨e, he⟩
        exact ⟨e2, by simp [unpackAll, hu, he2]⟩

/-- Claim C1 (code_bug evidence): delivering segments 2, 1, 3 in that arrival
order after a window-4 handshake (so `lastAcked` starts at 0) does NOT end
with a final ack of 3: the drain loop removes elements from the buffer while
iterating over it, so after segment 1 is drained the iterator skips the
now-front segment; the final read is acknowledged with ack number 2 and
segment 3 is still pending. -/
theorem drain_loop_skips_after_removal :
    (handle_read (runReads 1000 initialThread [probeBytes4, segBytes 2, segBytes 1])
        1000 (segBytes 3)).2 = some ⟨1000, 2⟩ ∧
    (handle_read (runReads 1000 initialThread [probeBytes4, segBytes 2, segBytes 1])
        1000 (segBytes 3)).1 =
      ⟨true, 1000, 4, 2, [97, 97], [⟨7, 65531, 3, 3, [97]⟩]⟩ := by decide

/-- Claim C2 (counterexample): with `windowSize = 4` and `lastAcked = 6`, a
segment with sequence number 2 satisfies the spec's modular stale formula but
the code's plain-integer check classifies it as NOT stale, and
`buffer_request` admits it into the buffer instead of discarding it. -/
theorem stale_modular_instance_refuted :
    specStaleOrDuplicateModular 6 4 2 = true ∧
    isStaleOrDuplicate 6 4 2 = false ∧
    buffer_request ⟨true, 1000, 4, 6, [], []⟩ ⟨7, 65531, 3, 2, [97]⟩ =
      ⟨true, 1000, 4, 6, [], [⟨7, 65531, 3, 2, [97]⟩]⟩ := by decide

/-- Claim C2 (amended): a received segment is discarded as already
acknowledged exactly when `lastAcked − W < seq ≤ lastAcked` or
`lastAcked + W ≤ seq` hold as plain integer comparisons, with no modular
reduction; a segment so classified leaves the receiver state unchanged, and in
particular with `windowSize = 4`, `lastAcked = 6`, sequence number 2 is NOT
classified stale. -/
theorem stale_check_plain_arithmetic :
    (∀ la W seq : Int,
       isStaleOrDuplicate la W seq = true ↔
         ((la - W < seq ∧ seq ≤ la) ∨ la + W ≤ seq)) ∧
    (∀ (st : ServerThread) (req : MessageHeader),
       isStaleOrDuplicate st.last_acked st.window_size (req.package_num : Int) = true →
       buffer_request st req = st) ∧
    isStaleOrDuplicate 6 4 2 = false := by
  refine ⟨fun la W seq => by simp [isStaleOrDuplicate],
    fun st req h => by simp [buffer_request, h], by decide⟩

/-- Witness for `stale_check_plain_arithmetic`: with `lastAcked = 6`,
`windowSize = 4`, a sequence-5 segment is stale under the plain comparisons
and its delivery leaves the state unchanged. -/
theorem stale_check_plain_arithmetic_app :
    buffer_request ⟨true, 1000, 4, 6, [], []⟩ ⟨7, 65531, 3, 5, [97]⟩ =
      ⟨true, 1000, 4, 6, [], []⟩ :=
  stale_check_plain_arithmetic.2.1 ⟨true, 1000, 4, 6, [], []⟩
    ⟨7, 65531, 3, 5, [97]⟩ (by decide)

/-- Claim C3: for every valid data segment, unpacking its packed byte encoding
returns a segment equal field by field to the original, and likewise for every
valid ack segment. -/
theorem codec_round_trip :
    (∀ h : MessageHeader, h.Wf → MessageHeader.unpack h.pack = .ok h) ∧
    (∀ a : AckHeader, a.max_msg_size < 65536 → a.ack_number < 256 →
      AckHeader.unpack a.pack = .ok a) := by
  constructor
  · rintro ⟨tl, mm, ws, pn, d⟩ ⟨h1, h2, h3, h4, h5, h6⟩
    simp only [MessageHeader.pack, MessageHeader.unpack, List.cons_append,
      List.nil_append]
    have e1 : tl / 256 * 256 + tl % 256 = tl := by omega
    have e2 : mm / 256 * 256 + mm % 256 = mm := by omega
    rw [e1, e2]
    simp only [mkMessageHeader]
    split_ifs with hA hB hC hD hE <;>
      try (exfalso; push_cast at *; omega)
    simp
  · rintro ⟨mm, an⟩ h1 h2
    simp only [AckHeader.pack, AckHeader.unpack]
    have e2 : mm / 256 * 256 + mm % 256 = mm := by omega
    rw [e2]
    simp only [mkAckHeader]
    split_ifs with hA hB <;> try (exfalso; push_cast at *; omega)
    simp

/-- Witness for `codec_round_trip` at a concrete data segment and ack. -/
theorem codec_round_trip_app :
    MessageHeader.unpack (MessageHeader.pack ⟨7, 65531, 3, 2, [97]⟩) =
      .ok ⟨7, 65531, 3, 2, [97]⟩ ∧
    AckHeader.unpack (AckHeader.pack ⟨1000, 3⟩) = .ok ⟨1000, 3⟩ :=
  ⟨codec_round_trip.1 ⟨7, 65531, 3, 2, [97]⟩
     (by unfold MessageHeader.Wf; decide),
   codec_round_trip.2 ⟨1000, 3⟩ (by decide) (by decide)⟩

/-- Claim C4 (counterexample): a buffer declaring length 20 but containing
only 15 bytes does not fail: `separate_requests` returns the whole buffer as a
single (short) slice. -/
theorem framer_truncated_returns_slice :
    separate_requests [0, 20, 0, 0, 0, 0, 1, 1, 1, 1, 1, 1, 1, 1, 1] =
      .ok [[0, 20, 0, 0, 0, 0, 1, 1, 1, 1, 1, 1, 1, 1, 1]] := by decide

/-- Claim C4 (amended): when the embedded 16-bit length prefixes exactly tile
the buffer, `separate_requests` returns one slice per message, each of its
declared length, in arrival order; but when the first length prefix implies
more bytes than remain, it returns the entire buffer as a single slice rather
than failing. -/
theorem framer_tiling_and_truncation :
    (∀ (msgs : List (List Nat)), msgs ≠ [] →
       (∀ m ∈ msgs, unpack_total_message_size m = .ok m.length) →
       separate_requests msgs.flatten = .ok msgs) ∧
    (∀ (b0 b1 b2 b3 b4 b5 : Nat) (rest : List Nat),
       (b0 :: b1 :: b2 :: b3 :: b4 :: b5 :: rest).length ≤ b0 * 256 + b1 →
       separate_requests (b0 :: b1 :: b2 :: b3 :: b4 :: b5 :: rest) =
         .ok [b0 :: b1 :: b2 :: b3 :: b4 :: b5 :: rest]) := by
  constructor
  · intro msgs hne hm
    rcases msgs with _ | ⟨m, ms⟩
    · exact absurd rfl hne
    have hm0 : unpack_total_message_size m = .ok m.length := hm m (by simp)
    have hms : ∀ x ∈ ms, unpack_total_message_size x = .ok x.length :=
      fun x hx => hm x (by simp [hx])
    rcases ms with _ | ⟨m2, ms2⟩
    · simp only [List.flatten_cons, List.flatten_nil, List.append_nil,
        separate_requests, hm0, lt_self_iff_false, if_false]
    · have hj : unpack_total_message_size ((m :: m2 :: ms2).flatten) =
          .ok m.length := by
        simpa [List.flatten_cons] using umts_append hm0 (m2 :: ms2).flatten
      have hlen : m.length < (m :: m2 :: ms2).flatten.length := by
        have h6 : 6 ≤ m2.length := umts_length (hms m2 (by simp))
        simp only [List.flatten_cons, List.length_append]
        omega
      simp only [separate_requests, hj, if_pos hlen]
      have h2 := sepLoop_spec (m2 :: ms2) hms m [] [] ((m :: m2 :: ms2).flatten)
        0 m.length (by simp) (by simp) (by simp)
      simpa using h2
  · intro b0 b1 b2 b3 b4 b5 rest hle
    simp only [separate_requests, unpack_total_message_size]
    rw [if_neg (by simp only [List.length_cons] at hle ⊢; omega)]

/-- Witness for `framer_tiling_and_truncation`: two concatenated messages of
declared lengths 10 and 14 are split into exactly those two slices in order,
and the 15-byte buffer declaring 20 comes back whole. -/
theorem framer_tiling_and_truncation_app :
    separate_requests
        ([[0, 10, 1, 2, 3, 4, 5, 6, 7, 8],
          [0, 14, 1, 2, 3, 4, 5, 6, 7, 8, 9, 10, 11, 12]] :
          List (List Nat)).flatten =
      .ok [[0, 10, 1, 2, 3, 4, 5, 6, 7, 8],
        [0, 14, 1, 2, 3, 4, 5, 6, 7, 8, 9, 10, 11, 12]] ∧
    separate_requests [0, 20, 0, 0, 0, 0, 2, 2, 2, 2, 2, 2, 2, 2, 2] =
      .ok [[0, 20, 0, 0, 0, 0, 2, 2, 2, 2, 2, 2, 2, 2, 2]] :=
  ⟨framer_tiling_and_truncation.1 _ (by decide) (by decide),
   framer_tiling_and_truncation.2 0 20 0 0 0 0 [2, 2, 2, 2, 2, 2, 2, 2, 2]
     (by decide)⟩

/-- Claim C5 (code_bug evidence): with declared window size 1 the handshake
probe (sequence 0, empty payload, exactly the segment the client constructs)
is classified already-acked by the plain-integer stale check (since
`lastAcked + W = -1 + 1 ≤ 0`), is dropped, and building the ack for
`lastAcked = -1` then raises, so no ack is produced and `lastAcked` never
becomes 0. -/
theorem handshake_window_one_fails :
    MessageHeader.unpack probeBytes1 = .ok (probe 1) ∧
    handle_read initialThread 1000 probeBytes1 =
      (⟨true, 1000, 1, -1, [], []⟩, none) ∧
    mkAckHeader (-1) 1000 = .error "invalid ack number" := by decide

/-- Claim C6 (code_bug evidence): in the reachable state left by a window-4
handshake followed by segments 2, 1, 3 (where `lastAcked = 2` and segment 3 is
still pending because of the drain-loop skip), re-delivering the
already-acknowledged segment 1 changes the receiver state: `lastAcked`
advances to 3 and segment 3's payload is appended to the assembled message. -/
theorem duplicate_redelivery_mutates_state :
    runReads 1000 initialThread [probeBytes4, segBytes 2, segBytes 1, segBytes 3] =
      ⟨true, 1000, 4, 2, [97, 97], [⟨7, 65531, 3, 3, [97]⟩]⟩ ∧
    isStaleOrDuplicate 2 4 1 = true ∧
    (handle_read ⟨true, 1000, 4, 2, [97, 97], [⟨7, 65531, 3, 3, [97]⟩]⟩ 1000
        (segBytes 1)).1 =
      ⟨true, 1000, 4, 3, [97, 97, 97], []⟩ := by decide

/-- Claim C7 (counterexample): with negotiated ceiling 7, the client cuts a
chunk of size 7, which exceeds ceiling minus header length (7 − 6 = 1), so the
claimed bound is false. -/
theorem chunk_ceiling_minus_header_refuted :
    ¬ (∀ c ∈ divide_msg [1, 2, 3, 4, 5, 6, 7, 8] 7, c.length ≤ 7 - 6) := by
  decide

/-- Claim C7 (amended): each chunk the client cuts has size at most the
negotiated ceiling itself (`divide_msg` splits by the raw negotiated size, not
by the size minus the header length), for any positive ceiling. -/
theorem chunk_bound_ceiling (message : List Nat) (maxSize : Nat)
    (hpos : 1 ≤ maxSize) :
    ∀ c ∈ divide_msg message maxSize, c.length ≤ maxSize :=
  divideAux_bound maxSize hpos message [] [] (by simp) (by simp)

/-- Witness for `chunk_bound_ceiling` at a concrete message and ceiling. -/
theorem chunk_bound_ceiling_app :
    ([1, 2, 3, 4, 5, 6, 7] : List Nat).length ≤ 7 :=
  chunk_bound_ceiling [1, 2, 3, 4, 5, 6, 7, 8] 7 (by decide)
    [1, 2, 3, 4, 5, 6, 7] (by decide)

/-- Claim C8: if any framed slice of one physical read fails to decode, the
whole batch is abandoned: no ack is produced for that read and the receiver
state is exactly the state before the read. -/
theorem batch_decode_failure_abandons (st : ServerThread) (neg : Int)
    (data : List Nat) (parts : List (List Nat))
    (hsep : separate_requests data = .ok parts)
    (hbad : ∃ p ∈ parts, ∃ e, MessageHeader.unpack p = .error e) :
    handle_read st neg data = (st, none) := by
  obtain ⟨p, hp, he⟩ := hbad
  obtain ⟨e, hua⟩ := unpackAll_error_of_mem parts p hp he
  simp [handle_read, hsep, hua]

/-- Witness for `batch_decode_failure_abandons`: a read whose single segment
declares window size 1 with package number 5 fails to decode, and the read
leaves the initial state untouched with no ack. -/
theorem batch_decode_failure_abandons_app :
    handle_read initialThread 1000 [0, 7, 255, 251, 0, 5, 97] =
      (initialThread, none) :=
  batch_decode_failure_abandons initialThread 1000 [0, 7, 255, 251, 0, 5, 97]
    [[0, 7, 255, 251, 0, 5, 97]] (by decide)
    ⟨[0, 7, 255, 251, 0, 5, 97], by decide, "invalid package number", by decide⟩

/-- Claim C9: when an ack timeout fires (either the socket timeout or the
manual clock check on the oldest outstanding segment), the client retransmits
the entire sliding window, each segment unmodified and in original order, and
resets the retransmission clock. -/
theorem timeout_retransmits_window (W tv : Int) (sw : List MessageHeader)
    (fms now : Int) (inc : Option (List Nat))
    (h : inc = none ∨ tv < now - fms) :
    client_ack_step W tv sw fms now inc =
      .ok (sw, now, sw.map MessageHeader.pack) := by
  by_cases hm : tv < now - fms
  · simp [client_ack_step, hm]
  · rcases h with h | h
    · subst h; simp [client_ack_step, hm]
    · exact absurd h hm

/-- Witness for `timeout_retransmits_window`: with outstanding segments 1 and
2 and a socket timeout, both are retransmitted in order, unmodified. -/
theorem timeout_retransmits_window_app :
    client_ack_step 2 5 [⟨7, 65531, 1, 1, [97]⟩, ⟨7, 65531, 1, 2, [98]⟩] 0 3
        none =
      .ok ([⟨7, 65531, 1, 1, [97]⟩, ⟨7, 65531, 1, 2, [98]⟩], 3,
        [[0, 7, 255, 251, 1, 1, 97], [0, 7, 255, 251, 1, 2, 98]]) := by
  rw [timeout_retransmits_window 2 5
    [⟨7, 65531, 1, 1, [97]⟩, ⟨7, 65531, 1, 2, [98]⟩] 0 3 none (Or.inl rfl)]
  decide

/-- Claim C10: whenever `MessageHeader.unpack` succeeds on a byte string, the
resulting segment's `total_length` is the actual byte count and its payload is
exactly the bytes after the 6-byte header; moreover the wire `totalLength`
field has no effect at all on the result of decoding. -/
theorem unpack_ignores_wire_total_length :
    (∀ (b : List Nat) (h : MessageHeader), MessageHeader.unpack b = .ok h →
       h.total_length = b.length ∧ h.data = b.drop 6) ∧
    (∀ (t1 t2 u1 u2 : Nat) (rest : List Nat),
       MessageHeader.unpack (t1 :: t2 :: rest) =
         MessageHeader.unpack (u1 :: u2 :: rest)) := by
  constructor
  · intro b h hok
    rcases b with _ | ⟨b0, _ | ⟨b1, _ | ⟨b2, _ | ⟨b3, _ | ⟨b4, _ | ⟨b5, rest⟩⟩⟩⟩⟩⟩ <;>
      simp only [MessageHeader.unpack] at hok
    all_goals try exact Except.noConfusion hok
    rw [mk_total_irrelevant] at hok
    simp only [mkMessageHeader] at hok
    split_ifs at hok
    all_goals simp only [Except.ok.injEq] at hok
    all_goals subst hok
    all_goals refine ⟨?_, by simp⟩
    all_goals simp only [List.length_cons]
    all_goals omega
  · intro t1 t2 u1 u2 rest
    rcases rest with _ | ⟨b2, _ | ⟨b3, _ | ⟨b4, _ | ⟨b5, rest⟩⟩⟩⟩ <;>
      simp only [MessageHeader.unpack]
    rw [mk_total_irrelevant, mk_total_irrelevant]

/-- Witness for `unpack_ignores_wire_total_length`: a frame whose wire
`totalLength` says 99 but which is 7 bytes long decodes to a segment with
`total_length = 7` and payload `[97]`. -/
theorem unpack_ignores_wire_total_length_app :
    (⟨7, 65531, 3, 2, [97]⟩ : MessageHeader).total_length =
      ([0, 99, 255, 251, 3, 2, 97] : List Nat).length ∧
    (⟨7, 65531, 3, 2, [97]⟩ : MessageHeader).data =
      ([0, 99, 255, 251, 3, 2, 97] : List Nat).drop 6 :=
  unpack_ignores_wire_total_length.1 [0, 99, 255, 251, 3, 2, 97]
    ⟨7, 65531, 3, 2, [97]⟩ (by decide)

end SCC
